import Mathlib

/-
  Verification development for a PLONK-style proof system (PLONKup variant).

  Shallow embedding of:
    * src/composer/gate.rs        (Gate data type)
    * src/cs/opening.rs           (commitmentOpener::compute_opening_polynomials)
    * src/proof_system/proof.rs   (Proof, Serializable, verify and its helpers)
    * src/debugger.rs             (Debugger::write_output constraint records)

  The scalar field is abstracted as a field F (the source fixes BLS12-381 Fr);
  G1 commitments are abstracted as a module G over F.  External collaborators
  (dusk-bytes codecs, the Merlin transcript, the KZG batch check, the FFT
  evaluation domain constructor) are modelled by explicit parameters or, where
  the claims need their behaviour, by definitions marked as modelled from the
  spec.
-/

namespace Plonk

/-! ## Witness handles and the Gate data type (src/composer/gate.rs) -/

/-- A witness is an opaque handle: a dense integer index into a variable
registry. -/
structure Witness where
  idx : Nat
deriving DecidableEq, Repr

/-- The Gate structure from src/composer/gate.rs lines 13-46: the selector
scalar fields in declaration order, followed by the four wire witness
handles. -/
structure Gate (F : Type) where
  q_m : F
  q_l : F
  q_r : F
  q_o : F
  q_f : F
  q_c : F
  q_arith : F
  q_range : F
  q_logic : F
  q_fixed_group_add : F
  q_variable_group_add : F
  a : Witness
  b : Witness
  c : Witness
  d : Witness
deriving DecidableEq, Repr

/-- The complete list of selector scalar fields of a gate, in the order they
are declared in the source structure. -/
def Gate.selectors {F : Type} (g : Gate F) : List F :=
  [g.q_m, g.q_l, g.q_r, g.q_o, g.q_f, g.q_c, g.q_arith, g.q_range,
   g.q_logic, g.q_fixed_group_add, g.q_variable_group_add]

/-- The complete list of wire witness handle fields of a gate, in declaration
order. -/
def Gate.wires {F : Type} (g : Gate F) : List Witness :=
  [g.a, g.b, g.c, g.d]

/-! ## A Rust vector with explicit capacity and bounds-checked writes
(for src/cs/opening.rs) -/

/-- Model of a Rust Vec: the live elements plus the allocated capacity.  The
capacity never affects indexing; indexing is bounds-checked against the
length, as in Rust, where an out-of-bounds index panics. -/
structure RVec (α : Type) where
  data : List α
  cap : Nat

/-- Vec::with_capacity. -/
def RVec.withCapacity {α : Type} (c : Nat) : RVec α := ⟨[], c⟩

/-- Vec::push (grows the allocation when the length would exceed it). -/
def RVec.push {α : Type} (v : RVec α) (x : α) : RVec α :=
  ⟨v.data ++ [x], max v.cap (v.data.length + 1)⟩

/-- Read v[i]; none models the Rust index-out-of-bounds panic. -/
def RVec.read {α : Type} (v : RVec α) (i : Nat) : Option α :=
  v.data.get? i

/-- Write v[i] = x; none models the Rust index-out-of-bounds panic.  Writing
through an index never grows a Vec: the bound is the length, not the
capacity. -/
def RVec.write {α : Type} (v : RVec α) (i : Nat) (x : α) : Option (RVec α) :=
  if i < v.data.length then some ⟨v.data.set i x, v.cap⟩ else none

/-! ## The v_pow loop of compute_opening_polynomials
(src/cs/opening.rs lines 37-45) -/

/-- One iteration of the loop `for i in 1..9 v_pow[i] = v_pow[i-1] * v`:
read index i-1, then write index i. -/
def vpowStep {F : Type} [Mul F] (v : F) (acc : Option (RVec F)) (i : Nat) :
    Option (RVec F) :=
  acc.bind fun vp => (vp.read (i - 1)).bind fun prev => vp.write i (prev * v)

/-- The v_pow construction of compute_opening_polynomials: allocate with
capacity 6, push one, then assign indices 1 through 8 in a loop. -/
def computeVPow {F : Type} [Mul F] [One F] (v : F) : Option (RVec F) :=
  (List.range' 1 8).foldl (vpowStep v)
    (some ((RVec.withCapacity 6).push 1))

/-! ## ProofEvaluations and Proof (src/proof_system/proof.rs lines 27-68) -/

/-- The 24-scalar evaluation record carried by a proof (the field list of
ProofEvaluations, as instantiated in src/proof_system/proof.rs lines
680-705). -/
structure ProofEvaluations (F : Type) where
  a_eval : F
  b_eval : F
  c_eval : F
  d_eval : F
  a_next_eval : F
  b_next_eval : F
  d_next_eval : F
  q_arith_eval : F
  q_c_eval : F
  q_l_eval : F
  q_r_eval : F
  q_k_eval : F
  s_sigma_1_eval : F
  s_sigma_2_eval : F
  s_sigma_3_eval : F
  r_poly_eval : F
  perm_eval : F
  lookup_perm_eval : F
  h_1_eval : F
  h_1_next_eval : F
  h_2_eval : F
  f_eval : F
  t_prime_eval : F
  t_prime_next_eval : F
deriving DecidableEq, Repr

/-- The Proof structure: fifteen commitments (of abstract commitment type G)
plus the evaluation record, in the declaration order of
src/proof_system/proof.rs lines 28-68. -/
structure Proof (F G : Type) where
  a_comm : G
  b_comm : G
  c_comm : G
  d_comm : G
  f_comm : G
  h_1_comm : G
  h_2_comm : G
  z_1_comm : G
  z_2_comm : G
  q_low_comm : G
  q_mid_comm : G
  q_high_comm : G
  q_4_comm : G
  w_zeta_frak_comm : G
  w_zeta_frak_w_comm : G
  evaluations : ProofEvaluations F
deriving DecidableEq, Repr

/-! ## Byte serialisation (src/proof_system/proof.rs lines 70-139)

The codecs for a single commitment and for the evaluation record live in the
external crates dusk-bytes / dusk-bls12-381 and in linearisation_poly.rs
(outside src); they are abstracted as codec records with explicit size,
encode and decode.  The Proof-level to_bytes writer loop and from_bytes
reader chain are embedded faithfully. -/

/-- An external fixed-size byte codec: encode to size bytes, decode from
size bytes. -/
structure Codec (α : Type) where
  size : Nat
  enc : α → List Nat
  dec : List Nat → Option α

/-- The dusk-bytes from_reader discipline: read exactly size bytes off the
front of the buffer and advance it; fail when fewer bytes remain or the
bytes do not decode. -/
def Codec.read {α : Type} (c : Codec α) (buf : List Nat) :
    Option (α × List Nat) :=
  if c.size ≤ buf.length then
    (c.dec (buf.take c.size)).map (fun a => (a, buf.drop c.size))
  else none

/-- One dusk-bytes writer step: copy the chunk into the buffer at the write
position, truncating at the buffer end (the writer never grows the
buffer). -/
def writeAt (buf : List Nat) (pos : Nat) (chunk : List Nat) : List Nat :=
  (buf.take pos ++ chunk ++ buf.drop (pos + chunk.length)).take buf.length

/-- The writer loop: successive writes advance the position by the chunk
length. -/
def writeSeq : List (List Nat) → List Nat → Nat → List Nat
  | [], buf, _ => buf
  | c :: cs, buf, pos => writeSeq cs (writeAt buf pos c) (pos + c.length)

/-- Proof::to_bytes (src/proof_system/proof.rs lines 76-99): a zeroed buffer
of Self::SIZE = 15 * Commitment::SIZE + ProofEvaluations::SIZE bytes, into
which the fifteen commitments are written in declaration order followed by
the evaluation record. -/
def Proof.to_bytes {F G : Type} (cg : Codec G) (ce : Codec (ProofEvaluations F))
    (p : Proof F G) : List Nat :=
  writeSeq
    [cg.enc p.a_comm, cg.enc p.b_comm, cg.enc p.c_comm, cg.enc p.d_comm,
     cg.enc p.f_comm, cg.enc p.h_1_comm, cg.enc p.h_2_comm,
     cg.enc p.z_1_comm, cg.enc p.z_2_comm,
     cg.enc p.q_low_comm, cg.enc p.q_mid_comm, cg.enc p.q_high_comm,
     cg.enc p.q_4_comm,
     cg.enc p.w_zeta_frak_comm, cg.enc p.w_zeta_frak_w_comm,
     ce.enc p.evaluations]
    (List.replicate (15 * cg.size + ce.size) 0) 0

/-- Proof::from_bytes (src/proof_system/proof.rs lines 101-139): fifteen
sequential commitment reads followed by the evaluation-record read, each
advancing the buffer. -/
def Proof.from_bytes {F G : Type} (cg : Codec G)
    (ce : Codec (ProofEvaluations F)) (buf : List Nat) :
    Option (Proof F G) := do
  let (a_comm, buf) ← cg.read buf
  let (b_comm, buf) ← cg.read buf
  let (c_comm, buf) ← cg.read buf
  let (d_comm, buf) ← cg.read buf
  let (f_comm, buf) ← cg.read buf
  let (h_1_comm, buf) ← cg.read buf
  let (h_2_comm, buf) ← cg.read buf
  let (z_1_comm, buf) ← cg.read buf
  let (z_2_comm, buf) ← cg.read buf
  let (q_low_comm, buf) ← cg.read buf
  let (q_mid_comm, buf) ← cg.read buf
  let (q_high_comm, buf) ← cg.read buf
  let (q_4_comm, buf) ← cg.read buf
  let (w_zeta_frak_comm, buf) ← cg.read buf
  let (w_zeta_frak_w_comm, buf) ← cg.read buf
  let (evaluations, _) ← ce.read buf
  pure ⟨a_comm, b_comm, c_comm, d_comm, f_comm, h_1_comm, h_2_comm,
        z_1_comm, z_2_comm, q_low_comm, q_mid_comm, q_high_comm, q_4_comm,
        w_zeta_frak_comm, w_zeta_frak_w_comm, evaluations⟩

/-- Well-formedness of an external codec, as guaranteed by the out-of-scope
serialisation collaborators: encodings have the declared size and decoding
inverts encoding. -/
def Codec.Lawful {α : Type} (c : Codec α) : Prop :=
  (∀ a, (c.enc a).length = c.size) ∧ (∀ a, c.dec (c.enc a) = some a)

/-- A lawful codec reads its own encoding off the front of a buffer. -/
theorem Codec.read_enc {α : Type} (c : Codec α) (hc : c.Lawful) (a : α)
    (rest : List Nat) : c.read (c.enc a ++ rest) = some (a, rest) := by
  unfold Codec.read
  have hlen : (c.enc a).length = c.size := hc.1 a
  have hle : c.size ≤ (c.enc a ++ rest).length := by
    simp [List.length_append, hlen]
  rw [if_pos hle]
  have htake : (c.enc a ++ rest).take c.size = c.enc a := by
    rw [← hlen]; exact List.take_left _ _
  have hdrop : (c.enc a ++ rest).drop c.size = rest := by
    rw [← hlen]; exact List.drop_left _ _
  rw [htake, hdrop, hc.2 a, Option.map_some']

/-- A lawful codec reads its own encoding when it is the whole buffer. -/
theorem Codec.read_enc_exact {α : Type} (c : Codec α) (hc : c.Lawful)
    (a : α) : c.read (c.enc a) = some (a, []) := by
  have h := Codec.read_enc c hc a []
  simpa using h

/-- writeAt on an exactly fitting region replaces it and preserves the
length. -/
theorem writeAt_fit (buf : List Nat) (pos : Nat) (chunk : List Nat)
    (h : pos + chunk.length ≤ buf.length) :
    writeAt buf pos chunk
      = buf.take pos ++ chunk ++ buf.drop (pos + chunk.length) ∧
    (writeAt buf pos chunk).length = buf.length := by
  have hpos : pos ≤ buf.length := le_trans (Nat.le_add_right _ _) h
  have hlen :
      (buf.take pos ++ chunk ++ buf.drop (pos + chunk.length)).length
        = buf.length := by
    simp only [List.length_append, List.length_take, List.length_drop]
    omega
  constructor
  · unfold writeAt
    rw [← hlen, List.take_length]
  · unfold writeAt
    rw [← hlen, List.take_length, hlen]

/-- The writer loop over chunks that exactly fill the remainder of the
buffer yields the prefix followed by the concatenation of the chunks. -/
theorem writeSeq_eq_append :
    ∀ (cs : List (List Nat)) (buf : List Nat) (pos : Nat),
      pos + (cs.map List.length).sum = buf.length →
      writeSeq cs buf pos = buf.take pos ++ cs.flatten := by
  intro cs
  induction cs with
  | nil =>
      intro buf pos h
      simp only [List.map_nil, List.sum_nil, Nat.add_zero] at h
      simp [writeSeq, h.symm ▸ List.take_length buf, h]
  | cons c cs ih =>
      intro buf pos h
      simp only [List.map_cons, List.sum_cons] at h
      have hfit : pos + c.length ≤ buf.length := by omega
      obtain ⟨hw, hwlen⟩ := writeAt_fit buf pos c hfit
      have hrec : (pos + c.length) + (cs.map List.length).sum
          = (writeAt buf pos c).length := by rw [hwlen]; omega
      have := ih (writeAt buf pos c) (pos + c.length) hrec
      simp only [writeSeq]
      rw [this, hw]
      have hpos : pos ≤ buf.length := le_trans (Nat.le_add_right _ _) hfit
      have htk : (buf.take pos ++ c ++ buf.drop (pos + c.length)).take
          (pos + c.length) = buf.take pos ++ c := by
        have h1 : (buf.take pos ++ c).length = pos + c.length := by
          simp only [List.length_append, List.length_take]
          omega
        rw [List.append_assoc]
        rw [← List.append_assoc]
        have := List.take_left (buf.take pos ++ c) (buf.drop (pos + c.length))
        rw [h1] at this
        exact this
      rw [htk, List.flatten]
      simp [List.append_assoc]

/-! ## Evaluation domain and field helpers (src/proof_system/proof.rs) -/

/-- The error kinds of verify that the claims touch.  ProofVerificationError
is returned on a failed batch check (src/proof_system/proof.rs line 405);
InvalidEvalDomainSize models the failure of the external EvaluationDomain
constructor propagated by the question-mark at line 170. -/
inductive PlonkError
  | InvalidEvalDomainSize
  | ProofVerificationError
deriving DecidableEq, Repr

/-- The consumed interface of the external EvaluationDomain: size n, group
generator, its inverse, and the inverse of n in the field. -/
structure EvaluationDomain (F : Type) where
  size : Nat
  group_gen : F
  group_gen_inv : F
  size_inv : F

/-- domain.evaluate_vanishing_polynomial: Z_H(z) = z^n - 1. -/
def EvaluationDomain.evaluateVanishingPolynomial {F : Type} [Field F]
    (d : EvaluationDomain F) (z : F) : F :=
  z ^ d.size - 1

/-- The least k with n ≤ 2^k (the ceiling binary logarithm), computed by a
bounded search so that it evaluates by kernel reduction. -/
def log2Ceil (n : Nat) : Nat :=
  (((List.range (n + 1)).filter (fun k => n ≤ 2 ^ k)).headD n)

/-- Modelled from the spec: EvaluationDomain::new lives in the fft module,
which is not under src.  Per the spec data model it constructs the
multiplicative subgroup of size 2^k with k the ceiling log of the requested
size, and it must fail when that subgroup does not exist in the scalar
field, i.e. when k exceeds the two-adicity bound of the field; the
generator for each admissible k is supplied by the field configuration. -/
def EvaluationDomain.new {F : Type} [Field F] (twoAdicity : Nat)
    (gens : Nat → F) (n : Nat) : Except PlonkError (EvaluationDomain F) :=
  let k := log2Ceil n
  if k ≤ twoAdicity then
    .ok ⟨2 ^ k, gens k, (gens k)⁻¹, ((2 ^ k : Nat) : F)⁻¹⟩
  else .error .InvalidEvalDomainSize

/-- BlsScalar::invert returns a CtOption that is none exactly on zero; an
unwrap of the none case is a panic. -/
def invert {F : Type} [Field F] [DecidableEq F] (x : F) : Option F :=
  if x = 0 then none else some x⁻¹

/-- compute_first_lagrange_evaluation (src/proof_system/proof.rs lines
591-599): Z_H(zeta_frak) * (n * (zeta_frak - 1))^-1, with the inversion
unwrapped; none models the panic on a non-invertible denominator. -/
def computeFirstLagrangeEvaluation {F : Type} [Field F] [DecidableEq F]
    (domain : EvaluationDomain F) (z_h_eval : F) (zeta_frak : F) :
    Option F :=
  let n_fr : F := (domain.size : F)
  let denom := n_fr * (zeta_frak - 1)
  (invert denom).map (fun i => z_h_eval * i)

/-- compute_barycentric_eval (src/proof_system/proof.rs lines 601-653):
numerator (z^n - 1) * n^-1, then the sum over non-zero public-input
positions of the batch-inverted denominators times the evaluations.  The
external batch_inversion is modelled by the field inverse applied
pointwise. -/
def computeBarycentricEval {F : Type} [Field F] [DecidableEq F]
    (evaluations : List F) (point : F) (domain : EvaluationDomain F) : F :=
  let numerator := (point ^ domain.size - 1) * domain.size_inv
  let nonZero : List Nat :=
    (List.range evaluations.length).filter
      (fun i => evaluations.getD i 0 ≠ 0)
  let denominators : List F :=
    (nonZero.map (fun index => domain.group_gen_inv ^ index * point - 1)).map
      (fun x => x⁻¹)
  let result : F :=
    ((List.range nonZero.length).map
      (fun i => denominators.getD i 0 * evaluations.getD (nonZero.getD i 0) 0)).sum
  result * numerator

/-- compute_quotient_evaluation (src/proof_system/proof.rs lines 411-480),
embedded term by term with the names of the source: the returned value is
(a - b - c - e - f) * Z_H(zeta_frak)^-1 — the d addend is absent, exactly
as in the source, whose final sum reads (a - b - c //+ d - e - f).  none
models the panic of the unwrapped inversion of Z_H(zeta_frak). -/
def computeQuotientEvaluation {F G : Type} [Field F] [DecidableEq F]
    (pf : Proof F G) (domain : EvaluationDomain F) (pub_inputs : List F)
    (alpha beta gamma delta epsilon zeta_frak z_h_eval l1_eval z_hat_eval
      lookup_sep_challenge : F) : Option F :=
  let pi_eval := computeBarycentricEval pub_inputs zeta_frak domain
  let alpha_sq := alpha * alpha
  let l_sep_2 := lookup_sep_challenge * lookup_sep_challenge
  let l_sep_3 := lookup_sep_challenge * l_sep_2
  let epsilon_one_plus_delta := epsilon * (1 + delta)
  let a := pf.evaluations.r_poly_eval + pi_eval
  let beta_sig1 := beta * pf.evaluations.s_sigma_1_eval
  let b_0 := pf.evaluations.a_eval + beta_sig1 + gamma
  let beta_sig2 := beta * pf.evaluations.s_sigma_2_eval
  let b_1 := pf.evaluations.b_eval + beta_sig2 + gamma
  let beta_sig3 := beta * pf.evaluations.s_sigma_3_eval
  let b_2 := pf.evaluations.c_eval + beta_sig3 + gamma
  let b_3 := (pf.evaluations.d_eval + gamma) * z_hat_eval * alpha
  let b := b_0 * b_1 * b_2 * b_3
  let c := l1_eval * alpha_sq
  let e := l1_eval * l_sep_2
  let f_0 := epsilon_one_plus_delta + pf.evaluations.h_1_eval
      + delta * pf.evaluations.h_2_eval
  let f_1 := epsilon_one_plus_delta + delta * pf.evaluations.h_1_next_eval
  let f := pf.evaluations.lookup_perm_eval * f_0 * f_1 * l_sep_3
  (invert z_h_eval).map (fun zi => (a - b - c - e - f) * zi)

/-- Modelled from the spec: the quotient evaluation with the lookup-identity
addend restored.  The spec requires the identity decomposition of sections
4.2 and 4.3 to sum all enabled addends and flags that the source drops the
d term; the value of that addend is taken as a parameter, since the spec
names the addend without giving its closed form, and it enters the sum with
the sign of the commented-out position (a - b - c + d - e - f). -/
def specQuotientEvaluation {F G : Type} [Field F] [DecidableEq F]
    (pf : Proof F G) (domain : EvaluationDomain F) (pub_inputs : List F)
    (alpha beta gamma delta epsilon zeta_frak z_h_eval l1_eval z_hat_eval
      lookup_sep_challenge lookup_identity_addend : F) : Option F :=
  let pi_eval := computeBarycentricEval pub_inputs zeta_frak domain
  let alpha_sq := alpha * alpha
  let l_sep_2 := lookup_sep_challenge * lookup_sep_challenge
  let l_sep_3 := lookup_sep_challenge * l_sep_2
  let epsilon_one_plus_delta := epsilon * (1 + delta)
  let a := pf.evaluations.r_poly_eval + pi_eval
  let beta_sig1 := beta * pf.evaluations.s_sigma_1_eval
  let b_0 := pf.evaluations.a_eval + beta_sig1 + gamma
  let beta_sig2 := beta * pf.evaluations.s_sigma_2_eval
  let b_1 := pf.evaluations.b_eval + beta_sig2 + gamma
  let beta_sig3 := beta * pf.evaluations.s_sigma_3_eval
  let b_2 := pf.evaluations.c_eval + beta_sig3 + gamma
  let b_3 := (pf.evaluations.d_eval + gamma) * z_hat_eval * alpha
  let b := b_0 * b_1 * b_2 * b_3
  let c := l1_eval * alpha_sq
  let e := l1_eval * l_sep_2
  let f_0 := epsilon_one_plus_delta + pf.evaluations.h_1_eval
      + delta * pf.evaluations.h_2_eval
  let f_1 := epsilon_one_plus_delta + delta * pf.evaluations.h_1_next_eval
  let f := pf.evaluations.lookup_perm_eval * f_0 * f_1 * l_sep_3
  (invert z_h_eval).map
    (fun zi => (a - b - c + lookup_identity_addend - e - f) * zi)

/-! ## Transcript model

The Merlin-style transcript is an external collaborator; what the claims
need is the sequence of labelled operations verify performs on it and a
deterministic supply of challenge scalars.  Events record the operations
performed by the statements of verify itself; the internal transcript use
of the delegated flatten and batch_check calls belongs to the commitment
scheme, which is outside src. -/

/-- A labelled transcript operation. -/
inductive TEvent
  | appendComm (label : String)
  | appendScalar (label : String)
  | challenge (label : String)
deriving DecidableEq, Repr

/-- Transcript state: the trace of operations, the count of challenges drawn
so far, and the deterministic stream the challenges come from. -/
structure Transcript (F : Type) where
  events : List TEvent
  ctr : Nat
  stream : Nat → F

/-- transcript.append_commitment. -/
def Transcript.appendCommitment {F G : Type} (t : Transcript F)
    (label : String) (_c : G) : Transcript F :=
  { t with events := t.events ++ [.appendComm label] }

/-- transcript.append_scalar. -/
def Transcript.appendScalar {F : Type} (t : Transcript F) (label : String)
    (_s : F) : Transcript F :=
  { t with events := t.events ++ [.appendScalar label] }

/-- transcript.challenge_scalar: returns the next scalar of the stream and
records the draw. -/
def Transcript.challengeScalar {F : Type} (t : Transcript F)
    (label : String) : F × Transcript F :=
  (t.stream t.ctr,
   { t with events := t.events ++ [.challenge label], ctr := t.ctr + 1 })

/-! ## Aggregated opening proofs and the verifier key
(src/proof_system/proof.rs lines 343-392) -/

/-- AggregateProof from the commitment scheme, as used by verify: an opening
witness commitment and the ordered list of (evaluation, commitment)
parts. -/
structure AggregateProof (F G : Type) where
  witness : G
  parts : List (F × G)
deriving DecidableEq, Repr

/-- AggregateProof::with_witness. -/
def AggregateProof.withWitness {F G : Type} (w : G) : AggregateProof F G :=
  ⟨w, []⟩

/-- AggregateProof::add_part appends one (evaluation, commitment) pair. -/
def AggregateProof.addPart {F G : Type} (ap : AggregateProof F G)
    (part : F × G) : AggregateProof F G :=
  ⟨ap.witness, ap.parts ++ [part]⟩

/-- The lookup sub-key of the verifier key: commitments to the four table
column polynomials. -/
structure LookupVerifierKey (G : Type) where
  table_1 : G
  table_2 : G
  table_3 : G
  table_4 : G
deriving DecidableEq, Repr

/-- The permutation sub-key of the verifier key: commitments to the three
opened permutation polynomials. -/
structure PermutationVerifierKey (G : Type) where
  s_sigma_1 : G
  s_sigma_2 : G
  s_sigma_3 : G
deriving DecidableEq, Repr

/-- The parts of the verifier key that the statements of verify use
directly; the widget sub-keys consumed only by the delegated linearisation
calls are abstracted away with them. -/
structure VerifierKey (G : Type) where
  n : Nat
  lookup : LookupVerifierKey G
  permutation : PermutationVerifierKey G
deriving DecidableEq, Repr

/-- compute_quotient_commitment (src/proof_system/proof.rs lines 482-495):
q_low + zeta_frak^n q_mid + zeta_frak^2n q_high + zeta_frak^3n q_4. -/
def computeQuotientCommitment {F G : Type} [Field F] [AddCommGroup G]
    [Module F G] (pf : Proof F G) (zeta_frak : F) (n : Nat) : G :=
  let z_n := zeta_frak ^ n
  let z_two_n := zeta_frak ^ (2 * n)
  let z_three_n := zeta_frak ^ (3 * n)
  pf.q_low_comm + z_n • pf.q_mid_comm + z_two_n • pf.q_high_comm
    + z_three_n • pf.q_4_comm

/-- The aggregated proof at zeta_frak (src/proof_system/proof.rs lines
345-371): witness w_zeta_frak_comm, then the thirteen parts added in source
order. -/
def verifyAggregateProof {F G : Type} (pf : Proof F G)
    (verifier_key : VerifierKey G) (t_eval : F)
    (t_comm r_comm t_prime_comm : G) : AggregateProof F G :=
  let ap := AggregateProof.withWitness (F := F) pf.w_zeta_frak_comm
  let ap := ap.addPart (t_eval, t_comm)
  let ap := ap.addPart (pf.evaluations.r_poly_eval, r_comm)
  let ap := ap.addPart (pf.evaluations.a_eval, pf.a_comm)
  let ap := ap.addPart (pf.evaluations.b_eval, pf.b_comm)
  let ap := ap.addPart (pf.evaluations.c_eval, pf.c_comm)
  let ap := ap.addPart (pf.evaluations.d_eval, pf.d_comm)
  let ap := ap.addPart
    (pf.evaluations.s_sigma_1_eval, verifier_key.permutation.s_sigma_1)
  let ap := ap.addPart
    (pf.evaluations.s_sigma_2_eval, verifier_key.permutation.s_sigma_2)
  let ap := ap.addPart
    (pf.evaluations.s_sigma_3_eval, verifier_key.permutation.s_sigma_3)
  let ap := ap.addPart (pf.evaluations.f_eval, pf.f_comm)
  let ap := ap.addPart (pf.evaluations.h_1_eval, pf.h_1_comm)
  let ap := ap.addPart (pf.evaluations.h_2_eval, pf.h_2_comm)
  let ap := ap.addPart (pf.evaluations.t_prime_eval, t_prime_comm)
  ap

/-- The shifted aggregated proof at zeta_frak * omega
(src/proof_system/proof.rs lines 376-392): witness w_zeta_frak_w_comm, then
the seven parts added in source order. -/
def verifyShiftedAggregateProof {F G : Type} (pf : Proof F G)
    (t_prime_comm : G) : AggregateProof F G :=
  let ap := AggregateProof.withWitness (F := F) pf.w_zeta_frak_w_comm
  let ap := ap.addPart (pf.evaluations.perm_eval, pf.z_1_comm)
  let ap := ap.addPart (pf.evaluations.a_next_eval, pf.a_comm)
  let ap := ap.addPart (pf.evaluations.b_next_eval, pf.b_comm)
  let ap := ap.addPart (pf.evaluations.d_next_eval, pf.d_comm)
  let ap := ap.addPart (pf.evaluations.h_1_next_eval, pf.h_1_comm)
  let ap := ap.addPart (pf.evaluations.lookup_perm_eval, pf.z_2_comm)
  let ap := ap.addPart (pf.evaluations.t_prime_next_eval, t_prime_comm)
  ap

/-! ## Proof::verify (src/proof_system/proof.rs lines 163-409) -/

/-- Proof::verify, embedded statement by statement.  External collaborators
appear as parameters: the field configuration (twoAdicity, gens) of the
evaluation-domain constructor, the result linComm of the delegated widget
linearisation MSM (lines 499-588 delegate to widget code outside src), and
the boolean outcome batchCheckOk of flatten plus opening_key.batch_check.
The result pairs the returned value with the final transcript; none models
a panic (a failed unwrap inside the Lagrange or quotient evaluation). -/
def Proof.verify {F G : Type} [Field F] [DecidableEq F] [AddCommGroup G]
    [Module F G] (twoAdicity : Nat) (gens : Nat → F) (linComm : G)
    (batchCheckOk :
      List F → AggregateProof F G → AggregateProof F G → Transcript F → Bool)
    (pf : Proof F G) (verifier_key : VerifierKey G)
    (transcript : Transcript F) (pub_inputs : List F) :
    Option (Except PlonkError Unit × Transcript F) :=
  match EvaluationDomain.new twoAdicity gens verifier_key.n with
  | .error e => some (.error e, transcript)
  | .ok domain =>
    let t := transcript.appendCommitment "a_w" pf.a_comm
    let t := t.appendCommitment "b_w" pf.b_comm
    let t := t.appendCommitment "c_w" pf.c_comm
    let t := t.appendCommitment "d_w" pf.d_comm
    let (zeta, t) := t.challengeScalar "zeta"
    let t := t.appendCommitment "f" pf.f_comm
    let t := t.appendCommitment "h1" pf.h_1_comm
    let t := t.appendCommitment "h2" pf.h_2_comm
    let (beta, t) := t.challengeScalar "beta"
    let t := t.appendScalar "beta" beta
    let (gamma, t) := t.challengeScalar "gamma"
    let (delta, t) := t.challengeScalar "delta"
    let (epsilon, t) := t.challengeScalar "epsilon"
    let t := t.appendCommitment "z_1" pf.z_1_comm
    let t := t.appendCommitment "z_2" pf.z_2_comm
    let (alpha, t) := t.challengeScalar "alpha"
    let (_range_sep_challenge, t) :=
      t.challengeScalar "range separation challenge"
    let (_logic_sep_challenge, t) :=
      t.challengeScalar "logic separation challenge"
    let (_fixed_base_sep_challenge, t) :=
      t.challengeScalar "fixed base separation challenge"
    let (_var_base_sep_challenge, t) :=
      t.challengeScalar "variable base separation challenge"
    let (lookup_sep_challenge, t) := t.challengeScalar "lookup challenge"
    let t := t.appendCommitment "q_low" pf.q_low_comm
    let t := t.appendCommitment "q_mid" pf.q_mid_comm
    let t := t.appendCommitment "q_high" pf.q_high_comm
    let t := t.appendCommitment "q_4" pf.q_4_comm
    let (zeta_frak, t) := t.challengeScalar "zeta_frak"
    let z_h_eval := domain.evaluateVanishingPolynomial zeta_frak
    match computeFirstLagrangeEvaluation domain z_h_eval zeta_frak with
    | none => none
    | some l1_eval =>
      let t_prime_comm := verifier_key.lookup.table_1
        + zeta • verifier_key.lookup.table_2
        + (zeta * zeta) • verifier_key.lookup.table_3
        + (zeta * zeta * zeta) • verifier_key.lookup.table_4
      match computeQuotientEvaluation pf domain pub_inputs alpha beta gamma
          delta epsilon zeta_frak z_h_eval l1_eval
          pf.evaluations.perm_eval lookup_sep_challenge with
      | none => none
      | some t_eval =>
        let t_comm := computeQuotientCommitment pf zeta_frak domain.size
        let t := t.appendScalar "a_eval" pf.evaluations.a_eval
        let t := t.appendScalar "b_eval" pf.evaluations.b_eval
        let t := t.appendScalar "c_eval" pf.evaluations.c_eval
        let t := t.appendScalar "d_eval" pf.evaluations.d_eval
        let t := t.appendScalar "a_next_eval" pf.evaluations.a_next_eval
        let t := t.appendScalar "b_next_eval" pf.evaluations.b_next_eval
        let t := t.appendScalar "d_next_eval" pf.evaluations.d_next_eval
        let t := t.appendScalar "s_sigma_1_eval" pf.evaluations.s_sigma_1_eval
        let t := t.appendScalar "s_sigma_2_eval" pf.evaluations.s_sigma_2_eval
        let t := t.appendScalar "s_sigma_3_eval" pf.evaluations.s_sigma_3_eval
        let t := t.appendScalar "q_arith_eval" pf.evaluations.q_arith_eval
        let t := t.appendScalar "q_c_eval" pf.evaluations.q_c_eval
        let t := t.appendScalar "q_l_eval" pf.evaluations.q_l_eval
        let t := t.appendScalar "q_r_eval" pf.evaluations.q_r_eval
        let t := t.appendScalar "q_k_eval" pf.evaluations.q_k_eval
        let t := t.appendScalar "perm_eval" pf.evaluations.perm_eval
        let t := t.appendScalar "lookup_perm_eval"
          pf.evaluations.lookup_perm_eval
        let t := t.appendScalar "h_1_eval" pf.evaluations.h_1_eval
        let t := t.appendScalar "h_1_next_eval" pf.evaluations.h_1_next_eval
        let t := t.appendScalar "h_2_eval" pf.evaluations.h_2_eval
        let t := t.appendScalar "t_eval" t_eval
        let t := t.appendScalar "r_eval" pf.evaluations.r_poly_eval
        let r_comm := linComm
        let aggregate_proof :=
          verifyAggregateProof pf verifier_key t_eval t_comm r_comm
            t_prime_comm
        let shifted_aggregate_proof :=
          verifyShiftedAggregateProof pf t_prime_comm
        let t := t.appendCommitment "w_z" pf.w_zeta_frak_comm
        let t := t.appendCommitment "w_z_w" pf.w_zeta_frak_w_comm
        if batchCheckOk [zeta_frak, zeta_frak * domain.group_gen]
            aggregate_proof shifted_aggregate_proof t
        then some (.ok (), t)
        else some (.error .ProofVerificationError, t)

/-! ## The prover-side opening list (src/cs/opening.rs lines 54-75) -/

/-- Names for the polynomials that can enter a batched opening at
zeta_frak: the reconstructed quotient t, the linearisation polynomial r,
the wires a, b, c, d, the permutations, the lookup query f, the sorted
halves h1 and h2, and the compressed table tPrime. -/
inductive OpenPoly
  | t
  | r
  | a
  | b
  | c
  | d
  | s1
  | s2
  | s3
  | f
  | h1
  | h2
  | tPrime
deriving DecidableEq, Repr

/-- The polynomial list built by compute_opening_polynomials at
src/cs/opening.rs lines 56-64, named by role: quotient_open_poly is t
reconstructed from its splits, lin_poly is r, w_l_poly, w_r_poly and
w_o_poly are the wires a, b and c, then sigma_1_poly and sigma_2_poly. -/
def proverOpeningList : List OpenPoly :=
  [.t, .r, .a, .b, .c, .s1, .s2]

/-- Modelled from the spec: the ordered thirteen-polynomial list that the
spec prescribes for the batched opening at zeta_frak. -/
def specOpeningList : List OpenPoly :=
  [.t, .r, .a, .b, .c, .d, .s1, .s2, .s3, .f, .h1, .h2, .tPrime]

/-! ## The debugger constraint records (src/debugger.rs lines 83-166) -/

/-- The values write_output extracts from one recorded constraint: the
twelve selector coefficients including the public-input coefficient, and
the four wired witness indices (the output wire index is called o in the
CDF record). -/
structure DebugConstraint (F : Type) where
  qm : F
  ql : F
  qr : F
  qo : F
  qf : F
  qc : F
  pi : F
  qarith : F
  qlogic : F
  qrange : F
  qgroup_variable : F
  qfixed_add : F
  a : Nat
  b : Nat
  o : Nat
  d : Nat
deriving DecidableEq, Repr

/-- The wired-witness lookup of write_output: position witnesses.a in the
witness registry, with a missing position defaulting to zero
(src/debugger.rs lines 109-132; the registry entries also carry an
EncodableSource, which plays no part in the evaluation). -/
def witnessValue {F : Type} [Zero F] (witnesses : List (Witness × F))
    (i : Nat) : F :=
  ((witnesses.get? i).map (fun e => e.2)).getD 0

/-- The per-constraint satisfaction flag of write_output
(src/debugger.rs lines 135-143): the arithmetic evaluation
qm a b + ql a + qr b + qo c + qf d + qc + pi compared with zero. -/
def constraintSatisfied {F : Type} [CommRing F] [DecidableEq F]
    (witnesses : List (Witness × F)) (c : DebugConstraint F) : Bool :=
  let wa := witnessValue witnesses c.a
  let wb := witnessValue witnesses c.b
  let wc := witnessValue witnesses c.o
  let wd := witnessValue witnesses c.d
  let evaluation := c.qm * wa * wb + c.ql * wa + c.qr * wb + c.qo * wc
    + c.qf * wd + c.qc + c.pi
  decide (evaluation = 0)

/-! ## Reduction lemmas for the successful verify path -/

/-- The value computed by compute_quotient_evaluation when the inversion of
Z_H(zeta_frak) succeeds. -/
def quotientEvalValue {F G : Type} [Field F] [DecidableEq F]
    (pf : Proof F G) (domain : EvaluationDomain F) (pub_inputs : List F)
    (alpha beta gamma delta epsilon zeta_frak z_h_eval l1_eval z_hat_eval
      lookup_sep_challenge : F) : F :=
  let pi_eval := computeBarycentricEval pub_inputs zeta_frak domain
  let alpha_sq := alpha * alpha
  let l_sep_2 := lookup_sep_challenge * lookup_sep_challenge
  let l_sep_3 := lookup_sep_challenge * l_sep_2
  let epsilon_one_plus_delta := epsilon * (1 + delta)
  let a := pf.evaluations.r_poly_eval + pi_eval
  let b_0 := pf.evaluations.a_eval + beta * pf.evaluations.s_sigma_1_eval + gamma
  let b_1 := pf.evaluations.b_eval + beta * pf.evaluations.s_sigma_2_eval + gamma
  let b_2 := pf.evaluations.c_eval + beta * pf.evaluations.s_sigma_3_eval + gamma
  let b_3 := (pf.evaluations.d_eval + gamma) * z_hat_eval * alpha
  let b := b_0 * b_1 * b_2 * b_3
  let c := l1_eval * alpha_sq
  let e := l1_eval * l_sep_2
  let f_0 := epsilon_one_plus_delta + pf.evaluations.h_1_eval
      + delta * pf.evaluations.h_2_eval
  let f_1 := epsilon_one_plus_delta + delta * pf.evaluations.h_1_next_eval
  let f := pf.evaluations.lookup_perm_eval * f_0 * f_1 * l_sep_3
  (a - b - c - e - f) * z_h_eval⁻¹

/-- A nonzero denominator makes the first-Lagrange unwrap succeed with the
explicit quotient value. -/
theorem computeFirstLagrangeEvaluation_eq_some {F : Type} [Field F]
    [DecidableEq F] (domain : EvaluationDomain F) (z_h_eval zeta_frak : F)
    (hD : (domain.size : F) * (zeta_frak - 1) ≠ 0) :
    computeFirstLagrangeEvaluation domain z_h_eval zeta_frak
      = some (z_h_eval * ((domain.size : F) * (zeta_frak - 1))⁻¹) := by
  simp [computeFirstLagrangeEvaluation, invert, hD]

/-- A zero denominator makes the first-Lagrange unwrap panic. -/
theorem computeFirstLagrangeEvaluation_eq_none {F : Type} [Field F]
    [DecidableEq F] (domain : EvaluationDomain F) (z_h_eval zeta_frak : F)
    (hD : (domain.size : F) * (zeta_frak - 1) = 0) :
    computeFirstLagrangeEvaluation domain z_h_eval zeta_frak = none := by
  simp [computeFirstLagrangeEvaluation, invert, hD]

/-- A nonzero Z_H(zeta_frak) makes the quotient-evaluation unwrap succeed
with the explicit value. -/
theorem computeQuotientEvaluation_eq_some {F G : Type} [Field F]
    [DecidableEq F] (pf : Proof F G) (domain : EvaluationDomain F)
    (pub_inputs : List F)
    (alpha beta gamma delta epsilon zeta_frak z_h_eval l1_eval z_hat_eval
      lookup_sep_challenge : F) (hzh : z_h_eval ≠ 0) :
    computeQuotientEvaluation pf domain pub_inputs alpha beta gamma delta
        epsilon zeta_frak z_h_eval l1_eval z_hat_eval lookup_sep_challenge
      = some (quotientEvalValue pf domain pub_inputs alpha beta gamma delta
          epsilon zeta_frak z_h_eval l1_eval z_hat_eval
          lookup_sep_challenge) := by
  simp [computeQuotientEvaluation, quotientEvalValue, invert, hzh]

/-- A zero Z_H(zeta_frak) makes the quotient-evaluation unwrap panic. -/
theorem computeQuotientEvaluation_eq_none {F G : Type} [Field F]
    [DecidableEq F] (pf : Proof F G) (domain : EvaluationDomain F)
    (pub_inputs : List F)
    (alpha beta gamma delta epsilon zeta_frak z_h_eval l1_eval z_hat_eval
      lookup_sep_challenge : F) (hzh : z_h_eval = 0) :
    computeQuotientEvaluation pf domain pub_inputs alpha beta gamma delta
        epsilon zeta_frak z_h_eval l1_eval z_hat_eval lookup_sep_challenge
      = none := by
  simp [computeQuotientEvaluation, invert, hzh]

/-- The 50 transcript operations verify performs itself, in program
order. -/
def eventList50 : List TEvent :=
  [.appendComm "a_w", .appendComm "b_w", .appendComm "c_w", .appendComm "d_w",
   .challenge "zeta",
   .appendComm "f", .appendComm "h1", .appendComm "h2",
   .challenge "beta", .appendScalar "beta",
   .challenge "gamma", .challenge "delta", .challenge "epsilon",
   .appendComm "z_1", .appendComm "z_2",
   .challenge "alpha",
   .challenge "range separation challenge",
   .challenge "logic separation challenge",
   .challenge "fixed base separation challenge",
   .challenge "variable base separation challenge",
   .challenge "lookup challenge",
   .appendComm "q_low", .appendComm "q_mid", .appendComm "q_high",
   .appendComm "q_4",
   .challenge "zeta_frak",
   .appendScalar "a_eval", .appendScalar "b_eval", .appendScalar "c_eval",
   .appendScalar "d_eval", .appendScalar "a_next_eval",
   .appendScalar "b_next_eval", .appendScalar "d_next_eval",
   .appendScalar "s_sigma_1_eval", .appendScalar "s_sigma_2_eval",
   .appendScalar "s_sigma_3_eval", .appendScalar "q_arith_eval",
   .appendScalar "q_c_eval", .appendScalar "q_l_eval",
   .appendScalar "q_r_eval", .appendScalar "q_k_eval",
   .appendScalar "perm_eval", .appendScalar "lookup_perm_eval",
   .appendScalar "h_1_eval", .appendScalar "h_1_next_eval",
   .appendScalar "h_2_eval", .appendScalar "t_eval", .appendScalar "r_eval",
   .appendComm "w_z", .appendComm "w_z_w"]

/-- The final transcript of a complete verify run: the fifty events of
verify appended, twelve challenges drawn. -/
def verifyT {F : Type} (tr : Transcript F) : Transcript F :=
  ⟨tr.events ++ eventList50, tr.ctr + 12, tr.stream⟩

/-- The compressed-table commitment computed by verify from the zeta
challenge. -/
def verifyTPrime {F G : Type} [Field F] [AddCommGroup G] [Module F G]
    (vk : VerifierKey G) (zeta : F) : G :=
  vk.lookup.table_1 + zeta • vk.lookup.table_2
    + (zeta * zeta) • vk.lookup.table_3
    + (zeta * zeta * zeta) • vk.lookup.table_4

/-- The aggregated proof at zeta_frak as verify assembles it on the
successful path, with all challenge values read off the transcript
stream. -/
def verifyA {F G : Type} [Field F] [DecidableEq F] [AddCommGroup G]
    [Module F G] (pf : Proof F G) (vk : VerifierKey G) (tr : Transcript F)
    (pub_inputs : List F) (d : EvaluationDomain F) (linComm : G) :
    AggregateProof F G :=
  let zeta_frak := tr.stream (tr.ctr + 11)
  let z_h_eval := d.evaluateVanishingPolynomial zeta_frak
  let l1_eval := z_h_eval * ((d.size : F) * (zeta_frak - 1))⁻¹
  verifyAggregateProof pf vk
    (quotientEvalValue pf d pub_inputs (tr.stream (tr.ctr + 5))
      (tr.stream (tr.ctr + 1)) (tr.stream (tr.ctr + 2))
      (tr.stream (tr.ctr + 3)) (tr.stream (tr.ctr + 4)) zeta_frak z_h_eval
      l1_eval pf.evaluations.perm_eval (tr.stream (tr.ctr + 10)))
    (computeQuotientCommitment pf zeta_frak d.size) linComm
    (verifyTPrime vk (tr.stream tr.ctr))

/-- The shifted aggregated proof as verify assembles it on the successful
path. -/
def verifyS {F G : Type} [Field F] [AddCommGroup G] [Module F G]
    (pf : Proof F G) (vk : VerifierKey G) (tr : Transcript F) :
    AggregateProof F G :=
  verifyShiftedAggregateProof pf (verifyTPrime vk (tr.stream tr.ctr))

/-- On a constructible domain and a non-degenerate zeta_frak challenge,
verify reduces to the batch-check branch with fully explicit intermediate
values and final transcript. -/
theorem verify_success_eq {F G : Type} [Field F] [DecidableEq F]
    [AddCommGroup G] [Module F G] (twoAdicity : Nat) (gens : Nat → F)
    (linComm : G)
    (bc : List F → AggregateProof F G → AggregateProof F G → Transcript F
      → Bool)
    (pf : Proof F G) (vk : VerifierKey G) (tr : Transcript F)
    (pub_inputs : List F) (d : EvaluationDomain F)
    (hdom : EvaluationDomain.new twoAdicity gens vk.n = .ok d)
    (hn : (d.size : F) ≠ 0)
    (h1 : tr.stream (tr.ctr + 11) ≠ 1)
    (hH : tr.stream (tr.ctr + 11) ^ d.size ≠ 1) :
    pf.verify twoAdicity gens linComm bc vk tr pub_inputs =
      (if bc [tr.stream (tr.ctr + 11), tr.stream (tr.ctr + 11) * d.group_gen]
           (verifyA pf vk tr pub_inputs d linComm) (verifyS pf vk tr)
           (verifyT tr)
       then some (.ok (), verifyT tr)
       else some (.error .ProofVerificationError, verifyT tr)) := by
  have hD : (d.size : F) * (tr.stream (tr.ctr + 11) - 1) ≠ 0 :=
    mul_ne_zero hn (sub_ne_zero.mpr h1)
  have hzh :
      d.evaluateVanishingPolynomial (tr.stream (tr.ctr + 11)) ≠ 0 := by
    simpa [EvaluationDomain.evaluateVanishingPolynomial, sub_ne_zero]
      using hH
  simp only [Proof.verify, hdom, Transcript.appendCommitment,
    Transcript.appendScalar, Transcript.challengeScalar, Nat.add_assoc,
    Nat.reduceAdd,
    computeFirstLagrangeEvaluation_eq_some d _ _ hD,
    computeQuotientEvaluation_eq_some (G := G) pf d pub_inputs _ _ _ _ _ _ _
      _ _ _ hzh]
  simp [verifyA, verifyS, verifyT, verifyTPrime, eventList50,
    List.append_assoc]

/-- When the re-derived zeta_frak challenge lands in the domain subgroup,
verify hits a failed unwrap (in the Lagrange computation when zeta_frak is
one or n vanishes in the field, in the quotient evaluation otherwise) and
panics instead of returning a value. -/
theorem verify_panics_on_subgroup_zeta {F G : Type} [Field F] [DecidableEq F]
    [AddCommGroup G] [Module F G] (twoAdicity : Nat) (gens : Nat → F)
    (linComm : G)
    (bc : List F → AggregateProof F G → AggregateProof F G → Transcript F
      → Bool)
    (pf : Proof F G) (vk : VerifierKey G) (tr : Transcript F)
    (pub_inputs : List F) (d : EvaluationDomain F)
    (hdom : EvaluationDomain.new twoAdicity gens vk.n = .ok d)
    (hH : tr.stream (tr.ctr + 11) ^ d.size = 1) :
    pf.verify twoAdicity gens linComm bc vk tr pub_inputs = none := by
  have hzh :
      d.evaluateVanishingPolynomial (tr.stream (tr.ctr + 11)) = 0 := by
    simp [EvaluationDomain.evaluateVanishingPolynomial, sub_eq_zero, hH]
  by_cases hD : ((d.size : F) * (tr.stream (tr.ctr + 11) - 1)) = 0
  · simp only [Proof.verify, hdom, Transcript.appendCommitment,
      Transcript.appendScalar, Transcript.challengeScalar, Nat.add_assoc,
      Nat.reduceAdd, computeFirstLagrangeEvaluation_eq_none d _ _ hD]
  · simp only [Proof.verify, hdom, Transcript.appendCommitment,
      Transcript.appendScalar, Transcript.challengeScalar, Nat.add_assoc,
      Nat.reduceAdd, computeFirstLagrangeEvaluation_eq_some d _ _ hD,
      computeQuotientEvaluation_eq_none (G := G) pf d pub_inputs _ _ _ _ _
        _ _ _ _ _ hzh]

/-! ## Claim theorems -/

/-- C2: in compute_opening_polynomials the v_pow vector is allocated with
capacity 6 and holds a single element when the loop over indices 1 through
8 starts; every indexed write of the loop is out of bounds, so every
execution that reaches the loop fails the in-bounds-indexing safety
property (modelled as the none outcome), for every challenge value v. -/
theorem vpow_writes_out_of_bounds {F : Type} [Mul F] [One F] :
    ((RVec.withCapacity 6).push (1 : F)).data.length = 1 ∧
    ((RVec.withCapacity 6).push (1 : F)).cap = 6 ∧
    ∀ v : F, computeVPow v = none :=
  ⟨rfl, rfl, fun _ => rfl⟩

/-- A concrete gate over the booleans, used to instantiate the gate-shape
statements. -/
def gate0 : Gate Bool :=
  ⟨false, false, false, false, false, false, false, false, false, false,
   false, ⟨0⟩, ⟨1⟩, ⟨2⟩, ⟨3⟩⟩

/-- C7 counterexample: a concrete gate has eleven selector scalar fields,
not twelve as the claim states. -/
theorem gate_selector_count_not_twelve :
    (Gate.selectors gate0).length = 11 ∧
    ¬ (Gate.selectors gate0).length = 12 := by
  decide

/-- C7 (amended): the Gate data type consists of exactly the eleven listed
selector scalar fields plus the four wire witness handles — the selector
and wire lists have lengths 11 and 4, and together they determine the
gate. -/
theorem gate_fields_exactly {F : Type} :
    (∀ g : Gate F, g.selectors.length = 11 ∧ g.wires.length = 4) ∧
    (∀ g₁ g₂ : Gate F,
      g₁.selectors = g₂.selectors → g₁.wires = g₂.wires → g₁ = g₂) := by
  refine ⟨fun g => ⟨rfl, rfl⟩, fun g₁ g₂ h₁ h₂ => ?_⟩
  cases g₁
  cases g₂
  simp only [Gate.selectors, List.cons.injEq, and_true] at h₁
  simp only [Gate.wires, List.cons.injEq, and_true] at h₂
  obtain ⟨e1, e2, e3, e4, e5, e6, e7, e8, e9, e10, e11⟩ := h₁
  obtain ⟨w1, w2, w3, w4⟩ := h₂
  subst e1 e2 e3 e4 e5 e6 e7 e8 e9 e10 e11 w1 w2 w3 w4
  rfl

/-- C7 witness: the amended statement applied at the concrete gate. -/
theorem gate_fields_exactly_witness :
    (Gate.selectors gate0).length = 11 ∧ gate0 = gate0 :=
  ⟨(gate_fields_exactly.1 gate0).1, gate_fields_exactly.2 gate0 gate0 rfl rfl⟩

/-- C3 counterexample: the polynomial list batched by the prover-side
compute_opening_polynomials is the seven-element list of
src/cs/opening.rs lines 56-64, not the thirteen-element list the claim
prescribes. -/
theorem prover_opening_list_not_thirteen :
    proverOpeningList ≠ specOpeningList := by
  decide

/-- C3 (amended): the verifier-side aggregated proof at zeta_frak adds its
(value, commitment) parts in exactly the claimed thirteen-polynomial order
t, r, a, b, c, d, sigma1, sigma2, sigma3, f, h1, h2, tPrime; the
prover-side compute_opening_polynomials of the legacy three-wire opening
module instead batches only the seven polynomials t, r, a, b, c, sigma1,
sigma2. -/
theorem opening_lists_orders {F G : Type} (pf : Proof F G)
    (vk : VerifierKey G) (t_eval : F) (t_comm r_comm t_prime_comm : G) :
    (verifyAggregateProof pf vk t_eval t_comm r_comm t_prime_comm).parts =
      [(t_eval, t_comm),
       (pf.evaluations.r_poly_eval, r_comm),
       (pf.evaluations.a_eval, pf.a_comm),
       (pf.evaluations.b_eval, pf.b_comm),
       (pf.evaluations.c_eval, pf.c_comm),
       (pf.evaluations.d_eval, pf.d_comm),
       (pf.evaluations.s_sigma_1_eval, vk.permutation.s_sigma_1),
       (pf.evaluations.s_sigma_2_eval, vk.permutation.s_sigma_2),
       (pf.evaluations.s_sigma_3_eval, vk.permutation.s_sigma_3),
       (pf.evaluations.f_eval, pf.f_comm),
       (pf.evaluations.h_1_eval, pf.h_1_comm),
       (pf.evaluations.h_2_eval, pf.h_2_comm),
       (pf.evaluations.t_prime_eval, t_prime_comm)] ∧
    (verifyAggregateProof pf vk t_eval t_comm r_comm
      t_prime_comm).witness = pf.w_zeta_frak_comm ∧
    proverOpeningList = [.t, .r, .a, .b, .c, .s1, .s2] := by
  refine ⟨?_, rfl, rfl⟩
  simp [verifyAggregateProof, AggregateProof.withWitness,
    AggregateProof.addPart]

/-- C10: the per-constraint satisfaction flag recorded by the debugger
equals the vanishing of the arithmetic evaluation
qm a b + ql a + qr b + qo c + qf d + qc + pi over the wired witness
values; the gadget selector coefficients play no part in that evaluation;
and a wired index outside the witness registry is evaluated as zero. -/
theorem debugger_flag_semantics {F : Type} [CommRing F] [DecidableEq F]
    (witnesses : List (Witness × F)) (c : DebugConstraint F) :
    (constraintSatisfied witnesses c = true ↔
      c.qm * witnessValue witnesses c.a * witnessValue witnesses c.b
        + c.ql * witnessValue witnesses c.a
        + c.qr * witnessValue witnesses c.b
        + c.qo * witnessValue witnesses c.o
        + c.qf * witnessValue witnesses c.d
        + c.qc + c.pi = 0) ∧
    (∀ x y z w v : F,
      constraintSatisfied witnesses
        { c with qarith := x, qlogic := y, qrange := z,
                 qgroup_variable := w, qfixed_add := v }
        = constraintSatisfied witnesses c) ∧
    (∀ i : Nat, witnesses.length ≤ i → witnessValue witnesses i = 0) := by
  refine ⟨?_, fun x y z w v => rfl, fun i hi => ?_⟩
  · simp [constraintSatisfied]
  · simp [witnessValue, List.getElem?_eq_none hi]

/-- C10 witness: the flag semantics applied to a concrete registry and
constraint over the integers. -/
theorem debugger_flag_semantics_witness :
    (constraintSatisfied [(⟨0⟩, (3 : Int)), (⟨1⟩, 4)]
        ⟨1, 1, 1, -1, 0, 0, 0, 1, 0, 0, 0, 0, 0, 1, 5, 0⟩ = true ↔
      (1 : Int) * 3 * 4 + 1 * 3 + 1 * 4 + (-1) * 0 + 0 * 3 + 0 + 0 = 0) ∧
    witnessValue [(⟨0⟩, (3 : Int)), (⟨1⟩, 4)] 5 = 0 :=
  ⟨(debugger_flag_semantics [(⟨0⟩, (3 : Int)), (⟨1⟩, 4)]
      ⟨1, 1, 1, -1, 0, 0, 0, 1, 0, 0, 0, 0, 0, 1, 5, 0⟩).1,
   (debugger_flag_semantics [(⟨0⟩, (3 : Int)), (⟨1⟩, 4)]
      ⟨1, 1, 1, -1, 0, 0, 0, 1, 0, 0, 0, 0, 0, 1, 5, 0⟩).2.2 5
      (by decide)⟩

/-- The writer loop of to_bytes fills the exactly sized buffer with the
concatenation of the sixteen encoded chunks. -/
theorem Proof.to_bytes_flatten {F G : Type} (cg : Codec G)
    (ce : Codec (ProofEvaluations F))
    (hg : ∀ g, (cg.enc g).length = cg.size)
    (he : ∀ e, (ce.enc e).length = ce.size) (p : Proof F G) :
    p.to_bytes cg ce =
      [cg.enc p.a_comm, cg.enc p.b_comm, cg.enc p.c_comm, cg.enc p.d_comm,
       cg.enc p.f_comm, cg.enc p.h_1_comm, cg.enc p.h_2_comm,
       cg.enc p.z_1_comm, cg.enc p.z_2_comm,
       cg.enc p.q_low_comm, cg.enc p.q_mid_comm, cg.enc p.q_high_comm,
       cg.enc p.q_4_comm,
       cg.enc p.w_zeta_frak_comm, cg.enc p.w_zeta_frak_w_comm,
       ce.enc p.evaluations].flatten := by
  unfold Proof.to_bytes
  rw [writeSeq_eq_append]
  · simp
  · simp [hg, he]
    ring

/-- C8: to_bytes is a fixed-size blob of 15 commitment sizes plus the
evaluation-record size, laid out as the fifteen commitments in declaration
order followed by the evaluation record. -/
theorem to_bytes_layout {F G : Type} (cg : Codec G)
    (ce : Codec (ProofEvaluations F))
    (hg : ∀ g, (cg.enc g).length = cg.size)
    (he : ∀ e, (ce.enc e).length = ce.size) (p : Proof F G) :
    p.to_bytes cg ce =
      cg.enc p.a_comm ++ cg.enc p.b_comm ++ cg.enc p.c_comm
        ++ cg.enc p.d_comm ++ cg.enc p.f_comm ++ cg.enc p.h_1_comm
        ++ cg.enc p.h_2_comm ++ cg.enc p.z_1_comm ++ cg.enc p.z_2_comm
        ++ cg.enc p.q_low_comm ++ cg.enc p.q_mid_comm
        ++ cg.enc p.q_high_comm ++ cg.enc p.q_4_comm
        ++ cg.enc p.w_zeta_frak_comm ++ cg.enc p.w_zeta_frak_w_comm
        ++ ce.enc p.evaluations ∧
    (p.to_bytes cg ce).length = 15 * cg.size + ce.size := by
  have hf := Proof.to_bytes_flatten cg ce hg he p
  constructor
  · rw [hf]
    simp [List.append_assoc]
  · rw [hf]
    simp [hg, he]
    ring

/-- C6: deserialising the serialisation of any proof returns the identical
proof. -/
theorem from_to_bytes_roundtrip {F G : Type} (cg : Codec G)
    (ce : Codec (ProofEvaluations F)) (hg : cg.Lawful) (he : ce.Lawful)
    (p : Proof F G) :
    Proof.from_bytes cg ce (p.to_bytes cg ce) = some p := by
  rw [Proof.to_bytes_flatten cg ce hg.1 he.1 p]
  simp only [List.flatten_cons, List.flatten_nil, List.append_nil]
  unfold Proof.from_bytes
  rw [Codec.read_enc cg hg, Option.bind_eq_bind', Option.some_bind']
  simp only []
  rw [Codec.read_enc cg hg, Option.bind_eq_bind', Option.some_bind']
  simp only []
  rw [Codec.read_enc cg hg, Option.bind_eq_bind', Option.some_bind']
  simp only []
  rw [Codec.read_enc cg hg, Option.bind_eq_bind', Option.some_bind']
  simp only []
  rw [Codec.read_enc cg hg, Option.bind_eq_bind', Option.some_bind']
  simp only []
  rw [Codec.read_enc cg hg, Option.bind_eq_bind', Option.some_bind']
  simp only []
  rw [Codec.read_enc cg hg, Option.bind_eq_bind', Option.some_bind']
  simp only []
  rw [Codec.read_enc cg hg, Option.bind_eq_bind', Option.some_bind']
  simp only []
  rw [Codec.read_enc cg hg, Option.bind_eq_bind', Option.some_bind']
  simp only []
  rw [Codec.read_enc cg hg, Option.bind_eq_bind', Option.some_bind']
  simp only []
  rw [Codec.read_enc cg hg, Option.bind_eq_bind', Option.some_bind']
  simp only []
  rw [Codec.read_enc cg hg, Option.bind_eq_bind', Option.some_bind']
  simp only []
  rw [Codec.read_enc cg hg, Option.bind_eq_bind', Option.some_bind']
  simp only []
  rw [Codec.read_enc cg hg, Option.bind_eq_bind', Option.some_bind']
  simp only []
  rw [Codec.read_enc cg hg, Option.bind_eq_bind', Option.some_bind']
  simp only []
  rw [Codec.read_enc_exact ce he, Option.bind_eq_bind', Option.some_bind']
  simp only []
  rfl

/-- A one-byte codec for boolean commitments, used to instantiate the
serialisation statements. -/
def boolCodec : Codec Bool :=
  ⟨1, fun b => [cond b 1 0],
   fun l =>
     match l with
     | [0] => some false
     | [1] => some true
     | _ => none⟩

/-- The unique evaluation record over the unit scalar type. -/
def unitEvals : ProofEvaluations Unit :=
  ⟨(), (), (), (), (), (), (), (), (), (), (), (),
   (), (), (), (), (), (), (), (), (), (), (), ()⟩

/-- A zero-byte codec for the unit evaluation record. -/
def unitEvalsCodec : Codec (ProofEvaluations Unit) :=
  ⟨0, fun _ => [], fun _ => some unitEvals⟩

/-- A concrete proof used to instantiate the serialisation statements. -/
def proofW : Proof Unit Bool :=
  ⟨true, false, true, false, true, false, true, false, true, false, true,
   false, true, false, true, unitEvals⟩

/-- C6 witness: the round trip applied at a concrete proof with concrete
codecs. -/
theorem from_to_bytes_roundtrip_witness :
    Proof.from_bytes boolCodec unitEvalsCodec
      (Proof.to_bytes boolCodec unitEvalsCodec proofW) = some proofW :=
  from_to_bytes_roundtrip boolCodec unitEvalsCodec
    ⟨fun _ => rfl, by decide⟩
    ⟨fun _ => rfl, fun e => by cases e; rfl⟩ proofW

/-- C8 witness: the layout statement applied at a concrete proof with
concrete codecs. -/
theorem to_bytes_layout_witness :
    (Proof.to_bytes boolCodec unitEvalsCodec proofW).length
      = 15 * boolCodec.size + unitEvalsCodec.size :=
  (to_bytes_layout boolCodec unitEvalsCodec (fun _ => rfl) (fun _ => rfl)
    proofW).2

/-! ## Concrete instances over ZMod 5 for the remaining claims -/

instance factPrime5 : Fact (Nat.Prime 5) := ⟨by norm_num⟩

/-- The all-zero evaluation record over ZMod 5. -/
def evals0 : ProofEvaluations (ZMod 5) :=
  ⟨0, 0, 0, 0, 0, 0, 0, 0, 0, 0, 0, 0, 0, 0, 0, 0, 0, 0, 0, 0, 0, 0, 0, 0⟩

/-- The all-zero proof over ZMod 5, with ZMod 5 also standing in for the
commitment group. -/
def pf5 : Proof (ZMod 5) (ZMod 5) :=
  ⟨0, 0, 0, 0, 0, 0, 0, 0, 0, 0, 0, 0, 0, 0, 0, evals0⟩

/-- A concrete evaluation domain of size two over ZMod 5 (generator 4 of
order two). -/
def dom2 : EvaluationDomain (ZMod 5) := ⟨2, 4, 4, 3⟩

/-- A verifier key over ZMod 5 requesting domain size 2. -/
def vkW : VerifierKey (ZMod 5) := ⟨2, ⟨0, 0, 0, 0⟩, ⟨0, 0, 0⟩⟩

/-- A verifier key over ZMod 5 requesting domain size 8, which exceeds the
two-adicity 2 of ZMod 5. -/
def vk8 : VerifierKey (ZMod 5) := ⟨8, ⟨0, 0, 0, 0⟩, ⟨0, 0, 0⟩⟩

/-- A fresh transcript whose challenge stream is constantly 2. -/
def trW : Transcript (ZMod 5) := ⟨[], 0, fun _ => 2⟩

/-- A fresh transcript whose challenge stream is constantly 4 (a square
root of one in ZMod 5). -/
def tr4 : Transcript (ZMod 5) := ⟨[], 0, fun _ => 4⟩

/-- The domain the modelled constructor produces for requested size 2 under
two-adicity 2 with generator stream constantly 2. -/
def domW : EvaluationDomain (ZMod 5) :=
  ⟨2 ^ 1, 2, (2 : ZMod 5)⁻¹, ((2 ^ 1 : Nat) : ZMod 5)⁻¹⟩

/-- C1: the verifier quotient evaluation omits the lookup-identity addend.
At a concrete input where every supplied evaluation vanishes and
Z_H(zeta_frak) is one, the source computation returns zero while the
spec-modelled sum with the lookup-identity addend set to one returns one:
the d term commented out in the source (a - b - c //+ d - e - f) is
dropped from the final sum. -/
theorem quotient_evaluation_drops_lookup_addend :
    computeQuotientEvaluation pf5 dom2 [] 0 0 0 0 0 0 1 0 0 0 = some 0 ∧
    specQuotientEvaluation pf5 dom2 [] 0 0 0 0 0 0 1 0 0 0 1 = some 1 ∧
    (0 : ZMod 5) ≠ 1 := by
  refine ⟨?_, ?_, by decide⟩
  · simp [computeQuotientEvaluation, computeBarycentricEval, invert, pf5,
      evals0]
  · simp [specQuotientEvaluation, computeBarycentricEval, invert, pf5,
      evals0]

/-- C9: the Lagrange and quotient computations of verify unwrap the
inversions of n (zeta_frak - 1) and of Z_H(zeta_frak): whenever n is a
unit of the field and zeta_frak is neither one nor an n-th root of unity
both unwraps succeed, while a zeta_frak equal to one kills the Lagrange
unwrap, a zeta_frak in the subgroup kills the quotient unwrap, and in
either case verify panics (none) instead of returning an error value. -/
theorem verifier_inversion_unwraps {F G : Type} [Field F] [DecidableEq F]
    [AddCommGroup G] [Module F G] (domain : EvaluationDomain F)
    (pf : Proof F G) (pub_inputs : List F)
    (alpha beta gamma delta epsilon l1_eval z_hat_eval lookup_sep
      zeta_frak : F) :
    ((domain.size : F) ≠ 0 → zeta_frak ≠ 1 →
      ∃ v, computeFirstLagrangeEvaluation domain
          (domain.evaluateVanishingPolynomial zeta_frak) zeta_frak
          = some v) ∧
    (zeta_frak ^ domain.size ≠ 1 →
      ∃ v, computeQuotientEvaluation pf domain pub_inputs alpha beta gamma
          delta epsilon zeta_frak
          (domain.evaluateVanishingPolynomial zeta_frak) l1_eval z_hat_eval
          lookup_sep = some v) ∧
    (zeta_frak = 1 →
      computeFirstLagrangeEvaluation domain
        (domain.evaluateVanishingPolynomial zeta_frak) zeta_frak = none) ∧
    (zeta_frak ^ domain.size = 1 →
      computeQuotientEvaluation pf domain pub_inputs alpha beta gamma delta
        epsilon zeta_frak (domain.evaluateVanishingPolynomial zeta_frak)
        l1_eval z_hat_eval lookup_sep = none) ∧
    (∀ (twoAdicity : Nat) (gens : Nat → F) (linComm : G)
        (bc : List F → AggregateProof F G → AggregateProof F G →
          Transcript F → Bool)
        (vk : VerifierKey G) (tr : Transcript F) (d : EvaluationDomain F),
      EvaluationDomain.new twoAdicity gens vk.n = .ok d →
      tr.stream (tr.ctr + 11) ^ d.size = 1 →
      pf.verify twoAdicity gens linComm bc vk tr pub_inputs = none) := by
  refine ⟨?_, ?_, ?_, ?_, ?_⟩
  · intro hn hzf
    exact ⟨_, computeFirstLagrangeEvaluation_eq_some domain _ _
      (mul_ne_zero hn (sub_ne_zero.mpr hzf))⟩
  · intro hH
    have hzh : domain.evaluateVanishingPolynomial zeta_frak ≠ 0 := by
      simpa [EvaluationDomain.evaluateVanishingPolynomial, sub_ne_zero]
        using hH
    exact ⟨_, computeQuotientEvaluation_eq_some pf domain pub_inputs
      _ _ _ _ _ _ _ _ _ _ hzh⟩
  · intro hzf
    subst hzf
    apply computeFirstLagrangeEvaluation_eq_none
    simp
  · intro hH
    apply computeQuotientEvaluation_eq_none
    simp [EvaluationDomain.evaluateVanishingPolynomial, sub_eq_zero, hH]
  · intro twoAdicity gens linComm bc vk tr d hdom hH
    exact verify_panics_on_subgroup_zeta twoAdicity gens linComm bc pf vk
      tr pub_inputs d hdom hH

/-- C9 witness: the unwrap statements applied at concrete inputs over
ZMod 5. -/
theorem verifier_inversion_unwraps_witness :
    (∃ v, computeFirstLagrangeEvaluation dom2
        (dom2.evaluateVanishingPolynomial 2) 2 = some v) ∧
    (∃ v, computeQuotientEvaluation pf5 dom2 [] 0 0 0 0 0 2
        (dom2.evaluateVanishingPolynomial 2) 0 0 0 = some v) ∧
    (computeFirstLagrangeEvaluation dom2
        (dom2.evaluateVanishingPolynomial 1) 1 = none) ∧
    (computeQuotientEvaluation pf5 dom2 [] 0 0 0 0 0 4
        (dom2.evaluateVanishingPolynomial 4) 0 0 0 = none) ∧
    pf5.verify 2 (fun _ => (2 : ZMod 5)) 0 (fun _ _ _ _ => true) vkW tr4 []
      = none :=
  ⟨(verifier_inversion_unwraps dom2 pf5 [] 0 0 0 0 0 0 0 0 2).1
      (by decide) (by decide),
   (verifier_inversion_unwraps dom2 pf5 [] 0 0 0 0 0 0 0 0 2).2.1
      (by decide),
   (verifier_inversion_unwraps dom2 pf5 [] 0 0 0 0 0 0 0 0 1).2.2.1 rfl,
   (verifier_inversion_unwraps dom2 pf5 [] 0 0 0 0 0 0 0 0 4).2.2.2.1
      (by decide),
   (verifier_inversion_unwraps dom2 pf5 [] 0 0 0 0 0 0 0 0 0).2.2.2.2
      2 (fun _ => (2 : ZMod 5)) 0 (fun _ _ _ _ => true) vkW tr4 domW rfl
      (by decide)⟩

/-- C5 (amended): once the evaluation domain for the verifier key is
constructible and the re-derived zeta_frak challenge is non-degenerate,
verify returns Ok exactly when the batch check accepts and the error
ProofVerificationError exactly when it rejects. -/
theorem verify_ok_iff_batch_check {F G : Type} [Field F] [DecidableEq F]
    [AddCommGroup G] [Module F G] (twoAdicity : Nat) (gens : Nat → F)
    (linComm : G)
    (bc : List F → AggregateProof F G → AggregateProof F G → Transcript F
      → Bool)
    (pf : Proof F G) (vk : VerifierKey G) (tr : Transcript F)
    (pub_inputs : List F) (d : EvaluationDomain F)
    (hdom : EvaluationDomain.new twoAdicity gens vk.n = .ok d)
    (hn : (d.size : F) ≠ 0)
    (h1 : tr.stream (tr.ctr + 11) ≠ 1)
    (hH : tr.stream (tr.ctr + 11) ^ d.size ≠ 1) :
    (bc [tr.stream (tr.ctr + 11), tr.stream (tr.ctr + 11) * d.group_gen]
        (verifyA pf vk tr pub_inputs d linComm) (verifyS pf vk tr)
        (verifyT tr) = true →
      pf.verify twoAdicity gens linComm bc vk tr pub_inputs
        = some (.ok (), verifyT tr)) ∧
    (bc [tr.stream (tr.ctr + 11), tr.stream (tr.ctr + 11) * d.group_gen]
        (verifyA pf vk tr pub_inputs d linComm) (verifyS pf vk tr)
        (verifyT tr) = false →
      pf.verify twoAdicity gens linComm bc vk tr pub_inputs
        = some (.error .ProofVerificationError, verifyT tr)) := by
  have h := verify_success_eq twoAdicity gens linComm bc pf vk tr
    pub_inputs d hdom hn h1 hH
  constructor
  · intro hb
    rw [h, if_pos hb]
  · intro hb
    rw [h, if_neg (by simp [hb])]

/-- C5 counterexample: with a verifier key whose domain size exceeds the
field two-adicity, verify reports the domain-construction error rather
than ProofVerificationError even though the batch check (constantly true)
holds: the claim that no cause other than the pairing check is reported to
the caller fails. -/
theorem verify_error_not_from_batch_check :
    pf5.verify 2 (fun _ => (2 : ZMod 5)) 0 (fun _ _ _ _ => true) vk8 trW []
      = some (.error .InvalidEvalDomainSize, trW) ∧
    PlonkError.InvalidEvalDomainSize ≠ PlonkError.ProofVerificationError :=
  ⟨rfl, by decide⟩

/-- C5 witness: the amended statement applied at a concrete input with a
constantly accepting batch check. -/
theorem verify_ok_iff_batch_check_witness :
    pf5.verify 2 (fun _ => (2 : ZMod 5)) 0 (fun _ _ _ _ => true) vkW trW []
      = some (.ok (), verifyT trW) :=
  (verify_ok_iff_batch_check 2 (fun _ => (2 : ZMod 5)) 0
    (fun _ _ _ _ => true) pf5 vkW trW [] domW rfl (by decide) (by decide)
    (by decide)).1 rfl

/-- C4: on the successful path, verify performs exactly the fifty labelled
transcript operations of eventList50, in program order: the four wire
commitment appends, the zeta draw, the three lookup commitment appends,
the beta draw and append, the gamma, delta and epsilon draws, the two
grand-product appends, the alpha and five separation draws, the four
quotient appends, the zeta_frak draw, the twenty-two evaluation appends
ending with t_eval then r_eval, and the two opening commitment appends. -/
theorem verify_transcript_order {F G : Type} [Field F] [DecidableEq F]
    [AddCommGroup G] [Module F G] (twoAdicity : Nat) (gens : Nat → F)
    (linComm : G)
    (bc : List F → AggregateProof F G → AggregateProof F G → Transcript F
      → Bool)
    (pf : Proof F G) (vk : VerifierKey G) (tr : Transcript F)
    (pub_inputs : List F) (d : EvaluationDomain F)
    (hdom : EvaluationDomain.new twoAdicity gens vk.n = .ok d)
    (hn : (d.size : F) ≠ 0)
    (h1 : tr.stream (tr.ctr + 11) ≠ 1)
    (hH : tr.stream (tr.ctr + 11) ^ d.size ≠ 1) :
    ∃ r T, pf.verify twoAdicity gens linComm bc vk tr pub_inputs
        = some (r, T) ∧
      T.events = tr.events ++ eventList50 ∧ T.ctr = tr.ctr + 12 := by
  have h := verify_success_eq twoAdicity gens linComm bc pf vk tr
    pub_inputs d hdom hn h1 hH
  rcases Bool.eq_false_or_eq_true
    (bc [tr.stream (tr.ctr + 11), tr.stream (tr.ctr + 11) * d.group_gen]
      (verifyA pf vk tr pub_inputs d linComm) (verifyS pf vk tr)
      (verifyT tr)) with hb | hb
  · exact ⟨.ok (), verifyT tr, by rw [h, if_pos hb], rfl, rfl⟩
  · exact ⟨.error .ProofVerificationError, verifyT tr,
      by rw [h, if_neg (by simp [hb])], rfl, rfl⟩

/-- C4 witness: the transcript-order statement applied at a concrete
input. -/
theorem verify_transcript_order_witness :
    ∃ r T, pf5.verify 2 (fun _ => (2 : ZMod 5)) 0 (fun _ _ _ _ => true)
        vkW trW [] = some (r, T) ∧
      T.events = trW.events ++ eventList50 ∧ T.ctr = trW.ctr + 12 :=
  verify_transcript_order 2 (fun _ => (2 : ZMod 5)) 0 (fun _ _ _ _ => true)
    pf5 vkW trW [] domW rfl (by decide) (by decide) (by decide)

end Plonk
